import Mathlib

/-!
# Verification of the Bank-of-Joe core (`bank_of_joe.py`)

A shallow embedding of the `Account` / `Bank` domain model.  Monetary
amounts (`balance`, `daily_limit`, `withdrawn_today`, operation
arguments) are modelled as rationals; the ambient calendar date read by
`date.today()` is modelled as a `Nat` day index passed explicitly to the
operations that read the clock.  Python methods mutate their receiver in
place and exceptions propagate past mutations already made, so every
operation returns the post-call state *together with* its
success-or-error outcome: on an error the returned state is the state at
the point the exception was raised.
-/

namespace BankOfJoe

/-- The error taxonomy: every `raise` site of the core, as a typed value.
Each constructor carries the context the original message interpolates. -/
inductive Err where
  | invalidAmount
  | invalidRate
  | invalidOwner
  | invalidLimit
  | insufficientFunds (balance : ℚ)
  | dailyLimitExceeded (remaining : ℚ)
  | accountNotFound (number : Int)
  | nonZeroBalance
deriving Repr, DecidableEq

/-- The `Account` dataclass. -/
structure Account where
  number : Int
  owner : String
  balance : ℚ
  daily_limit : ℚ
  last_withdraw_date : Nat
  withdrawn_today : ℚ
deriving Repr, DecidableEq

/-- `Account._rollover_if_new_day`: reset the daily withdrawal counter if
the call-time date differs from `last_withdraw_date`. -/
def Account.rollover_if_new_day (a : Account) (today : Nat) : Account :=
  if a.last_withdraw_date ≠ today then
    { a with last_withdraw_date := today, withdrawn_today := 0 }
  else a

/-- `Account.deposit`: reject `amount <= 0`, otherwise add to the balance. -/
def Account.deposit (a : Account) (amount : ℚ) : Account × Except Err Unit :=
  if amount ≤ 0 then (a, .error .invalidAmount)
  else ({ a with balance := a.balance + amount }, .ok ())

/-- `Account.withdraw`: reject `amount <= 0`; then roll the daily counter
over; then reject `amount > balance`; then, when a daily limit is set,
reject `amount > daily_limit - withdrawn_today`; finally debit the
balance and add to the daily counter. -/
def Account.withdraw (a : Account) (today : Nat) (amount : ℚ) :
    Account × Except Err Unit :=
  if amount ≤ 0 then (a, .error .invalidAmount)
  else
    let a1 := a.rollover_if_new_day today
    if a1.balance < amount then (a1, .error (.insufficientFunds a1.balance))
    else if 0 < a1.daily_limit then
      let remaining := a1.daily_limit - a1.withdrawn_today
      if remaining < amount then (a1, .error (.dailyLimitExceeded remaining))
      else ({ a1 with balance := a1.balance - amount,
                      withdrawn_today := a1.withdrawn_today + amount }, .ok ())
    else ({ a1 with balance := a1.balance - amount,
                    withdrawn_today := a1.withdrawn_today + amount }, .ok ())

/-- `Account.apply_interest`: reject a negative rate, otherwise credit
`balance * (rate_percent / 100)` and return the credited interest. -/
def Account.apply_interest (a : Account) (rate_percent : ℚ) :
    Account × Except Err ℚ :=
  if rate_percent < 0 then (a, .error .invalidRate)
  else
    let interest := a.balance * (rate_percent / 100)
    ({ a with balance := a.balance + interest }, .ok interest)

/-- State effect of `Account.__str__` (the render summary): it performs
the same daily rollover as `withdraw` before formatting.  The display
string itself is not modelled; no claim concerns its text. -/
def Account.render (a : Account) (today : Nat) : Account :=
  a.rollover_if_new_day today

/-- A Python `Dict[int, Account]` as an insertion-ordered association
list. -/
abbrev Dict := List (Int × Account)

/-- `d.get(k)`: first binding of `k`, `None` on a miss. -/
def dictGet (d : Dict) (k : Int) : Option Account :=
  (d.find? (fun p => p.1 == k)).map Prod.snd

/-- `d[k] = v`: overwrite an existing binding in place, otherwise append
a new binding (insertion order). -/
def dictInsert (d : Dict) (k : Int) (v : Account) : Dict :=
  if (d.find? (fun p => p.1 == k)).isSome then
    d.map (fun p => if p.1 == k then (k, v) else p)
  else d ++ [(k, v)]

/-- `del d[k]`: remove the binding of `k`. -/
def dictErase (d : Dict) (k : Int) : Dict :=
  d.filter (fun p => p.1 != k)

/-- The keys of a dict, in insertion order. -/
def dictKeys (d : Dict) : List Int := d.map Prod.fst

/-- The Python `str.strip()` method: drop leading and trailing whitespace.
(Defined over the character list so that concrete instances reduce.) -/
def pyStrip (s : String) : String :=
  ⟨((s.data.dropWhile Char.isWhitespace).reverse.dropWhile
      Char.isWhitespace).reverse⟩

/-- The `Bank` class: `_accounts` registry plus the `_next` counter. -/
structure Bank where
  accounts : Dict
  next : Int
deriving Repr, DecidableEq

/-- `Bank.__init__(starting_number = 1001)`. -/
def Bank.init (starting_number : Int := 1001) : Bank :=
  { accounts := [], next := starting_number }

/-- `Bank.open_account`: validate owner, initial deposit and daily
limit; construct the account with balance 0 under the next number;
increment the counter; run the ordinary deposit path when
`initial_deposit > 0`; register the account.  An exception escaping the
inner deposit would leave the counter already incremented and the
account unregistered, exactly as in the original. -/
def Bank.open_account (b : Bank) (owner : String) (today : Nat)
    (initial_deposit : ℚ := 0) (daily_limit : ℚ := 0) :
    Bank × Except Err Account :=
  if pyStrip owner = "" then (b, .error .invalidOwner)
  else if initial_deposit < 0 then (b, .error .invalidAmount)
  else if daily_limit < 0 then (b, .error .invalidLimit)
  else
    let acc : Account :=
      { number := b.next, owner := pyStrip owner, balance := 0,
        daily_limit := daily_limit, last_withdraw_date := today,
        withdrawn_today := 0 }
    let b1 : Bank := { b with next := b.next + 1 }
    if 0 < initial_deposit then
      match acc.deposit initial_deposit with
      | (acc1, .ok _) =>
          ({ b1 with accounts := dictInsert b1.accounts acc1.number acc1 },
           .ok acc1)
      | (_, .error e) => (b1, .error e)
    else
      ({ b1 with accounts := dictInsert b1.accounts acc.number acc }, .ok acc)

/-- `Bank.close_account`: miss is `AccountNotFound`; a balance other
than exactly 0 is `NonZeroBalance`; otherwise delete the binding and
return the removed account. -/
def Bank.close_account (b : Bank) (number : Int) : Bank × Except Err Account :=
  match dictGet b.accounts number with
  | none => (b, .error (.accountNotFound number))
  | some acc =>
    if acc.balance ≠ 0 then (b, .error .nonZeroBalance)
    else ({ b with accounts := dictErase b.accounts number }, .ok acc)

/-- `Bank.get`: pure lookup, no error on a miss. -/
def Bank.get (b : Bank) (number : Int) : Option Account :=
  dictGet b.accounts number

/-- `Bank.list_accounts` as a pure value: the entries of the registry.
(The aliasing behaviour of `dict(self._accounts)` is modelled separately
with an explicit heap below.) -/
def Bank.list_accounts (b : Bank) : Dict := b.accounts

/-! ## Operation sequences on a single account -/

/-- One call against an account. -/
inductive AccOp where
  | deposit (amount : ℚ)
  | withdraw (today : Nat) (amount : ℚ)
  | applyInterest (rate : ℚ)
  | render (today : Nat)
deriving Repr, DecidableEq

/-- The account state after one call, whether it succeeded or raised. -/
def Account.step (a : Account) : AccOp → Account
  | .deposit amount => (a.deposit amount).1
  | .withdraw today amount => (a.withdraw today amount).1
  | .applyInterest rate => (a.apply_interest rate).1
  | .render today => a.render today

/-- The account state after a sequence of calls. -/
def Account.runOps (a : Account) (ops : List AccOp) : Account :=
  ops.foldl Account.step a

/-! ## Operation sequences on a bank -/

/-- One lifecycle call against a bank. -/
inductive BankOp where
  | openAccount (owner : String) (today : Nat) (init lim : ℚ)
  | closeAccount (number : Int)
deriving Repr, DecidableEq

/-- The bank state after one call, whether it succeeded or raised. -/
def Bank.stepOp (b : Bank) : BankOp → Bank
  | .openAccount owner today init lim => (b.open_account owner today init lim).1
  | .closeAccount n => (b.close_account n).1

/-- The bank state after a sequence of calls. -/
def Bank.runOps (b : Bank) (ops : List BankOp) : Bank :=
  ops.foldl Bank.stepOp b

/-- The account numbers a single call hands out (one on a successful
open, none otherwise). -/
def issuedStep (b : Bank) : BankOp → List Int
  | .openAccount owner today init lim =>
      match (b.open_account owner today init lim).2 with
      | .ok acc => [acc.number]
      | .error _ => []
  | .closeAccount _ => []

/-- All account numbers handed out across a sequence of calls, in
order. -/
def issuedNumbers (b : Bank) : List BankOp → List Int
  | [] => []
  | op :: ops => issuedStep b op ++ issuedNumbers (b.stepOp op) ops

/-- Registry invariant: the counter strictly dominates every registered
number.  `Bank.init` satisfies it and every operation preserves it. -/
def Bank.Inv (b : Bank) : Prop :=
  ∀ k ∈ dictKeys b.accounts, k < b.next

instance (b : Bank) : Decidable b.Inv := by
  unfold Bank.Inv; infer_instance

/-! ## A reference heap, for the aliasing behaviour of `list_accounts`

Python dicts are mutable objects handled by reference.  To state that
`dict(self._accounts)` yields an independent snapshot rather than a live
reference, a dict object lives in a heap cell and `Bank` holds a cell
index; `dict(...)` allocates a fresh cell. -/

/-- A heap of dict objects; a reference is an index into `cells`. -/
structure PyHeap where
  cells : List Dict
deriving Repr, DecidableEq

/-- Dereference: the dict object a reference designates. -/
def PyHeap.read (h : PyHeap) (r : Nat) : Dict :=
  h.cells.getD r []

/-- Allocate a fresh dict object, returning the new heap and the fresh
reference. -/
def PyHeap.alloc (h : PyHeap) (d : Dict) : PyHeap × Nat :=
  (⟨h.cells ++ [d]⟩, h.cells.length)

/-- Mutate the dict object behind a reference in place (covers adding and
removing entries: `f` is the whole-dict effect of the mutation). -/
def PyHeap.write (h : PyHeap) (r : Nat) (d : Dict) : PyHeap :=
  ⟨h.cells.set r d⟩

/-- A `Bank` whose registry is a heap reference. -/
structure BankObj where
  accountsRef : Nat
  next : Int
deriving Repr, DecidableEq

/-- `Bank.list_accounts` with reference semantics:
`return dict(self._accounts)` reads the registry object and allocates a
fresh dict holding the same entries, returning the fresh reference. -/
def BankObj.list_accounts (h : PyHeap) (b : BankObj) : PyHeap × Nat :=
  h.alloc (h.read b.accountsRef)

/-- The per-account state invariant: a non-negative balance and a
non-negative daily counter. -/
def GoodAcc (a : Account) : Prop :=
  0 ≤ a.balance ∧ 0 ≤ a.withdrawn_today

/-! ## Concrete fixtures for witnesses and counterexamples

Field order: number, owner, balance, daily_limit, last_withdraw_date,
withdrawn_today. -/

/-- An empty account opened on day 0 (for C1). -/
def accC1 : Account := ⟨1001, "Joe", 0, 0, 0, 0⟩

/-- An account on day 0 with 3 already withdrawn (for C2). -/
def accC2 : Account := ⟨1002, "Joe", 10, 5, 0, 3⟩

/-- An account holding exactly 0.01 (for C7). -/
def accC7 : Account := ⟨1001, "A", 1/100, 0, 0, 0⟩

/-- A bank holding only `accC7` (for C7). -/
def bC7 : Bank := ⟨[(1001, accC7)], 1002⟩

/-- A one-cell heap whose cell 0 is a registry with one account (for C9). -/
def heapC9 : PyHeap := ⟨[[(1001, ⟨1001, "A", 5, 0, 0, 0⟩)]]⟩

/-- A bank object whose registry is cell 0 of `heapC9` (for C9). -/
def bankObjC9 : BankObj := ⟨0, 1002⟩

/-! ## Basic facts about the rollover -/

@[simp] theorem rollover_balance (a : Account) (t : Nat) :
    (a.rollover_if_new_day t).balance = a.balance := by
  unfold Account.rollover_if_new_day; split <;> rfl

@[simp] theorem rollover_daily_limit (a : Account) (t : Nat) :
    (a.rollover_if_new_day t).daily_limit = a.daily_limit := by
  unfold Account.rollover_if_new_day; split <;> rfl

@[simp] theorem rollover_number (a : Account) (t : Nat) :
    (a.rollover_if_new_day t).number = a.number := by
  unfold Account.rollover_if_new_day; split <;> rfl

@[simp] theorem rollover_owner (a : Account) (t : Nat) :
    (a.rollover_if_new_day t).owner = a.owner := by
  unfold Account.rollover_if_new_day; split <;> rfl

@[simp] theorem rollover_last_withdraw_date (a : Account) (t : Nat) :
    (a.rollover_if_new_day t).last_withdraw_date = t := by
  unfold Account.rollover_if_new_day; split <;> simp_all

/-- Rolling over on the stored date is a no-op. -/
@[simp] theorem rollover_self (a : Account) :
    a.rollover_if_new_day a.last_withdraw_date = a := by
  unfold Account.rollover_if_new_day; simp

/-- Rolling over twice on the same date equals rolling over once. -/
@[simp] theorem rollover_idem (a : Account) (t : Nat) :
    (a.rollover_if_new_day t).rollover_if_new_day t = a.rollover_if_new_day t := by
  have h : (a.rollover_if_new_day t).last_withdraw_date = t :=
    rollover_last_withdraw_date a t
  calc (a.rollover_if_new_day t).rollover_if_new_day t
      = (a.rollover_if_new_day t).rollover_if_new_day
          (a.rollover_if_new_day t).last_withdraw_date := by rw [h]
    _ = a.rollover_if_new_day t := rollover_self _

theorem rollover_withdrawn_today_nonneg (a : Account) (t : Nat)
    (h : 0 ≤ a.withdrawn_today) : 0 ≤ (a.rollover_if_new_day t).withdrawn_today := by
  unfold Account.rollover_if_new_day; split <;> simp_all

/-! ## Claim C8: apply_interest -/

/-- C8: `Account.apply_interest(rate_percent)` fails with `InvalidRate`
exactly when `rate_percent < 0`; otherwise it credits
`interest = balance * rate_percent / 100` to the balance and returns the
interest, touching no other field and consulting neither the daily-limit
state nor any date. -/
theorem C8_apply_interest_spec (a : Account) (rate_percent : ℚ) :
    (rate_percent < 0 →
      a.apply_interest rate_percent = (a, .error .invalidRate)) ∧
    (0 ≤ rate_percent →
      a.apply_interest rate_percent =
        ({ a with balance := a.balance + a.balance * (rate_percent / 100) },
         .ok (a.balance * (rate_percent / 100)))) := by
  constructor
  · intro h
    unfold Account.apply_interest
    rw [if_pos h]
  · intro h
    unfold Account.apply_interest
    rw [if_neg (not_lt.mpr h)]

/-- C8 witness: rate 10 on balance 40 returns interest 4 and leaves
balance 44, with the daily-limit state untouched. -/
theorem C8_witness :
    ({ number := 1001, owner := "Alice", balance := 40, daily_limit := 50,
       last_withdraw_date := 0, withdrawn_today := 0 : Account}.apply_interest 10).2
        = .ok 4 ∧
    ({ number := 1001, owner := "Alice", balance := 40, daily_limit := 50,
       last_withdraw_date := 0, withdrawn_today := 0 : Account}.apply_interest 10).1
      = { number := 1001, owner := "Alice", balance := 44, daily_limit := 50,
          last_withdraw_date := 0, withdrawn_today := 0 } := by
  have h := (C8_apply_interest_spec
    { number := 1001, owner := "Alice", balance := 40, daily_limit := 50,
      last_withdraw_date := 0, withdrawn_today := 0 } 10).2 (by norm_num)
  rw [h]
  norm_num

/-! ## Claim C6: withdraw case analysis on the stored day -/

/-- C6: on a day equal to `last_withdraw_date` (so the rollover is a
no-op) and with `amount > 0`, `withdraw` fails `InsufficientFunds`
carrying the balance when `amount > balance`; otherwise, when
`daily_limit > 0` and `amount > daily_limit - withdrawn_today`, it fails
`DailyLimitExceeded` carrying that remaining allowance; otherwise it
succeeds, debiting the balance and crediting the daily counter — the
insufficient-funds check strictly preceding the limit check. -/
theorem C6_withdraw_cases (a : Account) (today : Nat) (amount : ℚ)
    (hpos : 0 < amount) (hday : a.last_withdraw_date = today) :
    (a.balance < amount →
      a.withdraw today amount = (a, .error (.insufficientFunds a.balance))) ∧
    (amount ≤ a.balance → 0 < a.daily_limit →
      a.daily_limit - a.withdrawn_today < amount →
      a.withdraw today amount =
        (a, .error (.dailyLimitExceeded (a.daily_limit - a.withdrawn_today)))) ∧
    (amount ≤ a.balance →
      (0 < a.daily_limit → amount ≤ a.daily_limit - a.withdrawn_today) →
      a.withdraw today amount =
        ({ a with balance := a.balance - amount,
                  withdrawn_today := a.withdrawn_today + amount }, .ok ())) := by
  subst hday
  unfold Account.withdraw
  rw [if_neg (not_le.mpr hpos)]
  simp only [rollover_self]
  refine ⟨fun h1 => ?_, fun h1 h2 h3 => ?_, fun h1 h2 => ?_⟩
  · rw [if_pos h1]
  · rw [if_neg (not_lt.mpr h1), if_pos h2, if_pos h3]
  · rw [if_neg (not_lt.mpr h1)]
    by_cases hlim : 0 < a.daily_limit
    · rw [if_pos hlim, if_neg (not_lt.mpr (h2 hlim))]
    · rw [if_neg hlim]

/-- C6 witness: balance 60, limit 50, already 40 withdrawn today:
withdrawing 20 the same day fails `DailyLimitExceeded` with remaining
10. -/
theorem C6_witness :
    ({ number := 1001, owner := "Alice", balance := 60, daily_limit := 50,
       last_withdraw_date := 3, withdrawn_today := 40 : Account }.withdraw 3 20)
      = ({ number := 1001, owner := "Alice", balance := 60, daily_limit := 50,
           last_withdraw_date := 3, withdrawn_today := 40 },
         .error (.dailyLimitExceeded 10)) := by
  have h := ((C6_withdraw_cases
    { number := 1001, owner := "Alice", balance := 60, daily_limit := 50,
      last_withdraw_date := 3, withdrawn_today := 40 } 3 20
    (by norm_num) rfl).2.1 (by norm_num) (by norm_num) (by norm_num))
  rw [h]
  norm_num

/-! ## Claim C4: the daily-limit bound after a successful withdrawal -/

/-- C4: when `daily_limit > 0`, every successful `withdraw` leaves
`withdrawn_today ≤ daily_limit`.  (The proviso of the claim — that the bound
held when the counter was last reset — is not even needed: success
itself forces `withdrawn_today + amount ≤ daily_limit` after the
rollover.) -/
theorem C4_daily_limit_bound (a : Account) (today : Nat) (amount : ℚ)
    (hlim : 0 < a.daily_limit)
    (hok : (a.withdraw today amount).2 = .ok ()) :
    (a.withdraw today amount).1.withdrawn_today ≤ a.daily_limit := by
  unfold Account.withdraw at hok ⊢
  by_cases h0 : amount ≤ 0
  · rw [if_pos h0] at hok; exact absurd hok (by simp)
  rw [if_neg h0] at hok ⊢
  set a1 := a.rollover_if_new_day today with ha1
  by_cases h1 : a1.balance < amount
  · rw [if_pos h1] at hok; exact absurd hok (by simp)
  rw [if_neg h1] at hok ⊢
  have hlim1 : 0 < a1.daily_limit := by rw [ha1, rollover_daily_limit]; exact hlim
  rw [if_pos hlim1] at hok ⊢
  by_cases h2 : a1.daily_limit - a1.withdrawn_today < amount
  · rw [if_pos h2] at hok; exact absurd hok (by simp)
  rw [if_neg h2]
  have : a1.withdrawn_today + amount ≤ a1.daily_limit := by linarith [not_lt.mp h2]
  simpa [ha1] using this

/-- C4 witness: limit 50, 30 already withdrawn today; a successful
withdrawal of 20 leaves `withdrawn_today = 50 ≤ 50`. -/
theorem C4_witness :
    (0:ℚ) < 50 ∧
    (({ number := 1, owner := "A", balance := 100, daily_limit := 50,
        last_withdraw_date := 2, withdrawn_today := 30 : Account }.withdraw 2 20).1
      ).withdrawn_today ≤ 50 := by
  refine ⟨by norm_num, ?_⟩
  exact C4_daily_limit_bound
    { number := 1, owner := "A", balance := 100, daily_limit := 50,
      last_withdraw_date := 2, withdrawn_today := 30 } 2 20 (by norm_num)
    (by norm_num [Account.withdraw, Account.rollover_if_new_day])

/-! ## Claim C7: close_account -/

/-- After deleting a key, looking it up misses. -/
theorem dictGet_erase_self (d : Dict) (k : Int) :
    dictGet (dictErase d k) k = none := by
  simp only [dictGet, dictErase, Option.map_eq_none', List.find?_eq_none,
    List.mem_filter]
  intro p hp
  simpa using hp.2

/-- C7: `close_account(n)` fails `AccountNotFound` on a missing number;
fails `NonZeroBalance` — registry untouched — whenever the balance is
anything but exactly 0; and on success deletes the binding (a subsequent
`get` misses) and returns the removed account. -/
theorem C7_close_account_spec (b : Bank) (n : Int) :
    (dictGet b.accounts n = none →
      b.close_account n = (b, .error (.accountNotFound n))) ∧
    (∀ acc, dictGet b.accounts n = some acc → acc.balance ≠ 0 →
      b.close_account n = (b, .error .nonZeroBalance)) ∧
    (∀ acc, dictGet b.accounts n = some acc → acc.balance = 0 →
      (b.close_account n).2 = .ok acc ∧
      (b.close_account n).1.get n = none ∧
      (b.close_account n).1.accounts = dictErase b.accounts n ∧
      (b.close_account n).1.next = b.next) := by
  refine ⟨fun h => ?_, fun acc h hb => ?_, fun acc h hb => ?_⟩
  · simp [Bank.close_account, h]
  · simp [Bank.close_account, h, hb]
  · simp [Bank.close_account, h, hb, Bank.get, dictGet_erase_self]

/-- C7 witness: an account holding exactly 0.01 fails to close with
`NonZeroBalance` and the bank is left unchanged. -/
theorem C7_witness :
    bC7.close_account 1001 = (bC7, .error .nonZeroBalance) := by
  exact (C7_close_account_spec bC7 1001).2.1 accC7
    (by norm_num [dictGet, List.find?, bC7]) (by norm_num [accC7])

/-! ## Shapes and frame lemmas for the write operations -/

/-- A non-positive amount is rejected before the rollover runs: the
account comes back untouched. -/
theorem withdraw_nonpos (a : Account) (today : Nat) (amount : ℚ)
    (h : amount ≤ 0) : a.withdraw today amount = (a, .error .invalidAmount) := by
  unfold Account.withdraw
  rw [if_pos h]

/-- With a positive amount, the post-state is the rolled-over account,
either as-is (on a rejection) or with the debit and counter credit
applied; in the successful case the amount was covered by the balance. -/
theorem withdraw_pos_shape (a : Account) (today : Nat) (amount : ℚ)
    (hpos : 0 < amount) :
    (a.withdraw today amount).1 = a.rollover_if_new_day today ∨
    (amount ≤ a.balance ∧
      (a.withdraw today amount).1 =
        { a.rollover_if_new_day today with
          balance := a.balance - amount,
          withdrawn_today :=
            (a.rollover_if_new_day today).withdrawn_today + amount }) := by
  unfold Account.withdraw
  rw [if_neg (not_le.mpr hpos)]
  set a1 := a.rollover_if_new_day today with ha1
  have hbal : a1.balance = a.balance := by rw [ha1, rollover_balance]
  by_cases h1 : a1.balance < amount
  · left; rw [if_pos h1]
  · rw [if_neg h1]
    by_cases h2 : 0 < a1.daily_limit
    · rw [if_pos h2]
      by_cases h3 : a1.daily_limit - a1.withdrawn_today < amount
      · left; rw [if_pos h3]
      · right
        refine ⟨by rw [← hbal]; exact not_lt.mp h1, ?_⟩
        rw [if_neg h3, ← hbal]
    · right
      refine ⟨by rw [← hbal]; exact not_lt.mp h1, ?_⟩
      rw [if_neg h2, ← hbal]

/-- A failing deposit leaves the account untouched. -/
theorem deposit_error_frame (a : Account) (amount : ℚ) (e : Err)
    (h : (a.deposit amount).2 = .error e) : (a.deposit amount).1 = a := by
  by_cases hc : amount ≤ 0
  · simp [Account.deposit, hc]
  · simp [Account.deposit, hc] at h

/-- A failing apply_interest leaves the account untouched. -/
theorem apply_interest_error_frame (a : Account) (rate : ℚ) (e : Err)
    (h : (a.apply_interest rate).2 = .error e) : (a.apply_interest rate).1 = a := by
  by_cases hc : rate < 0
  · simp [Account.apply_interest, hc]
  · simp [Account.apply_interest, hc] at h

/-- A failing withdraw never touches the balance, and the post-state is
either the original account (non-positive amount) or exactly its
rollover (insufficient funds / daily limit). -/
theorem withdraw_error_frame (a : Account) (today : Nat) (amount : ℚ) (e : Err)
    (h : (a.withdraw today amount).2 = .error e) :
    (a.withdraw today amount).1.balance = a.balance ∧
    ((a.withdraw today amount).1 = a ∨
      (a.withdraw today amount).1 = a.rollover_if_new_day today) := by
  unfold Account.withdraw at h ⊢
  by_cases h0 : amount ≤ 0
  · rw [if_pos h0] at h ⊢
    exact ⟨rfl, Or.inl rfl⟩
  · rw [if_neg h0] at h ⊢
    set a1 := a.rollover_if_new_day today with ha1
    have hbal : a1.balance = a.balance := by rw [ha1, rollover_balance]
    by_cases h1 : a1.balance < amount
    · rw [if_pos h1] at h ⊢
      exact ⟨hbal, Or.inr rfl⟩
    · rw [if_neg h1] at h ⊢
      by_cases h2 : 0 < a1.daily_limit
      · rw [if_pos h2] at h ⊢
        by_cases h3 : a1.daily_limit - a1.withdrawn_today < amount
        · rw [if_pos h3] at h ⊢
          exact ⟨hbal, Or.inr rfl⟩
        · rw [if_neg h3] at h
          simp at h
      · rw [if_neg h2] at h
        simp at h

/-- A failing open_account leaves the bank untouched (in particular the
counter): all three validations precede any mutation, and the internal
deposit, performed only when `initial_deposit > 0`, cannot fail. -/
theorem open_account_error_frame (b : Bank) (owner : String) (today : Nat)
    (init lim : ℚ) (e : Err)
    (h : (b.open_account owner today init lim).2 = .error e) :
    (b.open_account owner today init lim).1 = b := by
  unfold Bank.open_account at h ⊢
  by_cases h1 : pyStrip owner = ""
  · rw [if_pos h1]
  · rw [if_neg h1] at h ⊢
    by_cases h2 : init < 0
    · rw [if_pos h2]
    · rw [if_neg h2] at h ⊢
      by_cases h3 : lim < 0
      · rw [if_pos h3]
      · rw [if_neg h3] at h ⊢
        by_cases h4 : 0 < init
        · rw [if_pos h4] at h
          simp [Account.deposit, not_le.mpr h4] at h
        · rw [if_neg h4] at h
          simp at h

/-- A failing close_account leaves the bank untouched. -/
theorem close_account_error_frame (b : Bank) (n : Int) (e : Err)
    (h : (b.close_account n).2 = .error e) : (b.close_account n).1 = b := by
  unfold Bank.close_account at h ⊢
  cases hg : dictGet b.accounts n with
  | none => simp [hg]
  | some acc =>
    rw [hg] at h
    by_cases hb : acc.balance ≠ 0
    · simp [hb]
    · simp [hb] at h

/-! ## Claim C1: all-or-nothing on failure -/

/-- C1 counterexample: an empty account last touched on day 0, asked to
withdraw 5 on day 1, raises `InsufficientFunds` — yet the call has moved
`last_withdraw_date` from 0 to 1, so the observable state after the
failing call differs from the state before it. -/
theorem C1_counterexample :
    (accC1.withdraw 1 5).2 = .error (.insufficientFunds 0) ∧
    (accC1.withdraw 1 5).1.last_withdraw_date = 1 ∧
    accC1.last_withdraw_date = 0 ∧
    (accC1.withdraw 1 5).1 ≠ accC1 := by
  refine ⟨?_, ?_, rfl, ?_⟩
  · norm_num [accC1, Account.withdraw, Account.rollover_if_new_day]
  · norm_num [accC1, Account.withdraw, Account.rollover_if_new_day]
  · intro hcontra
    have := congrArg Account.last_withdraw_date hcontra
    norm_num [accC1, Account.withdraw, Account.rollover_if_new_day] at this

/-- C1 amended: every failing operation leaves the balance and the
observable state of the bank untouched, and leaves the account itself
untouched — except that a withdraw rejected *after* amount validation
leaves exactly the daily rollover applied (on a new day:
`last_withdraw_date := today`, `withdrawn_today := 0`); no failing call
ever moves money. -/
theorem C1_no_partial_effect :
    (∀ (a : Account) (amount : ℚ) (e : Err),
      (a.deposit amount).2 = .error e → (a.deposit amount).1 = a) ∧
    (∀ (a : Account) (rate : ℚ) (e : Err),
      (a.apply_interest rate).2 = .error e → (a.apply_interest rate).1 = a) ∧
    (∀ (a : Account) (today : Nat) (amount : ℚ) (e : Err),
      (a.withdraw today amount).2 = .error e →
        (a.withdraw today amount).1.balance = a.balance ∧
        ((a.withdraw today amount).1 = a ∨
          (a.withdraw today amount).1 = a.rollover_if_new_day today)) ∧
    (∀ (b : Bank) (owner : String) (today : Nat) (init lim : ℚ) (e : Err),
      (b.open_account owner today init lim).2 = .error e →
        (b.open_account owner today init lim).1 = b) ∧
    (∀ (b : Bank) (n : Int) (e : Err),
      (b.close_account n).2 = .error e → (b.close_account n).1 = b) :=
  ⟨deposit_error_frame, apply_interest_error_frame, withdraw_error_frame,
   open_account_error_frame, close_account_error_frame⟩

/-- C1 witness: a deposit of −1 fails and leaves the concrete account
bit-identical. -/
theorem C1_witness :
    (accC2.deposit (-1)).1 = accC2 :=
  C1_no_partial_effect.1 accC2 (-1) .invalidAmount
    (by norm_num [accC2, Account.deposit])

/-! ## Claim C2: rollover ordering inside withdraw -/

/-- C2 counterexample: on day 1, an account last touched on day 0 with
`withdrawn_today = 3` is asked to withdraw 0.  The call fails
`InvalidAmount` and performs **no** rollover — `last_withdraw_date`
stays 0 and `withdrawn_today` stays 3 — because the code validates the
amount *before* calling `_rollover_if_new_day`, not after as claimed. -/
theorem C2_counterexample :
    (accC2.withdraw 1 0).2 = .error .invalidAmount ∧
    (accC2.withdraw 1 0).1.last_withdraw_date = 0 ∧
    (accC2.withdraw 1 0).1.withdrawn_today = 3 := by
  refine ⟨?_, ?_, ?_⟩ <;>
    norm_num [accC2, Account.withdraw, Account.rollover_if_new_day]

/-- C2 amended: `withdraw` validates the amount first — a non-positive
amount is rejected with no rollover — and for every positive amount the
rollover runs before the insufficient-funds and daily-limit checks, so
the whole call behaves as if run on the rolled-over account and always
leaves `last_withdraw_date = today`. -/
theorem C2_rollover_order :
    (∀ (a : Account) (today : Nat) (amount : ℚ), amount ≤ 0 →
      a.withdraw today amount = (a, .error .invalidAmount)) ∧
    (∀ (a : Account) (today : Nat) (amount : ℚ), 0 < amount →
      a.withdraw today amount =
        (a.rollover_if_new_day today).withdraw today amount ∧
      (a.withdraw today amount).1.last_withdraw_date = today) := by
  refine ⟨withdraw_nonpos, fun a today amount hpos => ⟨?_, ?_⟩⟩
  · unfold Account.withdraw
    rw [if_neg (not_le.mpr hpos), if_neg (not_le.mpr hpos)]
    simp only [rollover_idem]
  · by_cases h0 : amount ≤ 0
    · exact absurd hpos (not_lt.mpr h0)
    · rcases withdraw_pos_shape a today amount hpos with hs | ⟨hle, hs⟩ <;>
        rw [hs] <;> simp

/-- C2 witness: a positive withdrawal on day 1 against `accC1` (stored
day 0) equals the same call on the pre-rolled account and stamps day 1. -/
theorem C2_witness :
    accC1.withdraw 1 1 = (accC1.rollover_if_new_day 1).withdraw 1 1 ∧
    (accC1.withdraw 1 1).1.last_withdraw_date = 1 :=
  (C2_rollover_order.2 accC1 1 1 (by norm_num))

/-! ## Preservation of the per-account invariant -/

/-- A deposit either leaves the account alone (on rejection) or adds a
strictly positive amount to the balance. -/
theorem deposit_shape (a : Account) (amount : ℚ) :
    (a.deposit amount).1 = a ∨
    (0 < amount ∧
      (a.deposit amount).1 = { a with balance := a.balance + amount }) := by
  by_cases h : amount ≤ 0
  · left; simp [Account.deposit, h]
  · right; exact ⟨not_le.mp h, by simp [Account.deposit, h]⟩

/-- apply_interest either leaves the account alone (on rejection) or
adds `balance * rate / 100` with a non-negative rate. -/
theorem apply_interest_shape (a : Account) (rate : ℚ) :
    (a.apply_interest rate).1 = a ∨
    (0 ≤ rate ∧ (a.apply_interest rate).1 =
      { a with balance := a.balance + a.balance * (rate / 100) }) := by
  by_cases h : rate < 0
  · left; simp [Account.apply_interest, h]
  · right; exact ⟨not_lt.mp h, by simp [Account.apply_interest, h]⟩

/-- Every single operation preserves the account invariant. -/
theorem step_good (a : Account) (op : AccOp) (h : GoodAcc a) :
    GoodAcc (a.step op) := by
  obtain ⟨hb, hw⟩ := h
  cases op with
  | deposit amount =>
    rcases deposit_shape a amount with hs | ⟨hpos, hs⟩
    · simpa only [Account.step, hs] using ⟨hb, hw⟩
    · simp only [Account.step, hs, GoodAcc]
      exact ⟨add_nonneg hb hpos.le, hw⟩
  | withdraw today amount =>
    by_cases h0 : amount ≤ 0
    · simpa only [Account.step, withdraw_nonpos a today amount h0]
        using ⟨hb, hw⟩
    · have hpos := not_le.mp h0
      have hw1 := rollover_withdrawn_today_nonneg a today hw
      rcases withdraw_pos_shape a today amount hpos with hs | ⟨hle, hs⟩
      · simp only [Account.step, hs, GoodAcc]
        exact ⟨by rw [rollover_balance]; exact hb, hw1⟩
      · simp only [Account.step, hs, GoodAcc]
        constructor
        · linarith
        · linarith
  | applyInterest rate =>
    rcases apply_interest_shape a rate with hs | ⟨hnn, hs⟩
    · simpa only [Account.step, hs] using ⟨hb, hw⟩
    · simp only [Account.step, hs, GoodAcc]
      have : 0 ≤ a.balance * (rate / 100) :=
        mul_nonneg hb (by positivity)
      exact ⟨by linarith, hw⟩
  | render today =>
    simp only [Account.step, Account.render, GoodAcc]
    exact ⟨by rw [rollover_balance]; exact hb,
      rollover_withdrawn_today_nonneg a today hw⟩

/-- Every operation sequence preserves the account invariant. -/
theorem runOps_good (a : Account) (ops : List AccOp) (h : GoodAcc a) :
    GoodAcc (a.runOps ops) := by
  induction ops generalizing a with
  | nil => exact h
  | cons op ops ih =>
    simp only [Account.runOps, List.foldl_cons] at *
    exact ih _ (step_good a op h)

/-- Everything a successful open_account guarantees about the account it
returns and the bank it leaves behind. -/
theorem open_account_ok_cases (b : Bank) (owner : String) (today : Nat)
    (init lim : ℚ) (acc : Account)
    (h : (b.open_account owner today init lim).2 = .ok acc) :
    acc.number = b.next ∧ acc.withdrawn_today = 0 ∧ 0 ≤ acc.balance ∧
    acc.daily_limit = lim ∧ 0 ≤ acc.daily_limit ∧
    acc.last_withdraw_date = today ∧
    (b.open_account owner today init lim).1 =
      ⟨dictInsert b.accounts b.next acc, b.next + 1⟩ := by
  unfold Bank.open_account at h ⊢
  by_cases h1 : pyStrip owner = ""
  · rw [if_pos h1] at h; simp at h
  · rw [if_neg h1] at h ⊢
    by_cases h2 : init < 0
    · rw [if_pos h2] at h; simp at h
    · rw [if_neg h2] at h ⊢
      by_cases h3 : lim < 0
      · rw [if_pos h3] at h; simp at h
      · rw [if_neg h3] at h ⊢
        by_cases h4 : 0 < init
        · rw [if_pos h4] at h ⊢
          simp only [Account.deposit, if_neg (not_le.mpr h4)] at h ⊢
          obtain rfl := (Except.ok.injEq _ _).mp h
          refine ⟨rfl, rfl, ?_, rfl, not_lt.mp h3, rfl, rfl⟩
          have := not_lt.mp h2
          simpa using this
        · rw [if_neg h4] at h ⊢
          obtain rfl := (Except.ok.injEq _ _).mp h
          exact ⟨rfl, rfl, le_refl 0, rfl, not_lt.mp h3, rfl, rfl⟩

/-! ## Claim C3: the balance never goes negative -/

/-- C3: any account coming out of a successful `open_account`, run
through any sequence of deposit / withdraw / apply_interest / render
calls (each succeeding or failing), keeps `balance ≥ 0`; every
intermediate state is the run of a prefix, so the bound holds at all
times. -/
theorem C3_balance_nonneg (b : Bank) (owner : String) (today : Nat)
    (init lim : ℚ) (acc : Account)
    (hok : (b.open_account owner today init lim).2 = .ok acc)
    (ops : List AccOp) :
    0 ≤ (acc.runOps ops).balance := by
  obtain ⟨-, hwt, hbal, -⟩ := open_account_ok_cases b owner today init lim acc hok
  exact (runOps_good acc ops ⟨hbal, le_of_eq hwt.symm⟩).1

/-- C3 witness: open with 100 at limit 50, then deposit 5, fail a
withdrawal of 300, withdraw 30 next day, fail a deposit of −1: the
balance stays non-negative. -/
theorem C3_witness :
    0 ≤ ((Account.mk 1001 "Alice" 100 50 0 0).runOps
      [.deposit 5, .withdraw 0 300, .withdraw 1 30, .deposit (-1)]).balance :=
  C3_balance_nonneg (Bank.init 1001) "Alice" 0 100 50
    (Account.mk 1001 "Alice" 100 50 0 0)
    (by norm_num [Bank.open_account, Bank.init, Account.deposit,
      (by decide : pyStrip "Alice" = "Alice"),
      (by decide : ¬ ("Alice" = ""))])
    [.deposit 5, .withdraw 0 300, .withdraw 1 30, .deposit (-1)]

/-! ## Claim C10: the daily counter never goes negative -/

/-- C10: any account coming out of a successful `open_account`, run
through any sequence of deposit / withdraw / apply_interest / render
calls, keeps `withdrawn_today ≥ 0`: it starts at 0, each rollover resets
it to 0, and only the strictly positive amount of a successful
withdrawal is ever added. -/
theorem C10_withdrawn_today_nonneg (b : Bank) (owner : String) (today : Nat)
    (init lim : ℚ) (acc : Account)
    (hok : (b.open_account owner today init lim).2 = .ok acc)
    (ops : List AccOp) :
    0 ≤ (acc.runOps ops).withdrawn_today := by
  obtain ⟨-, hwt, hbal, -⟩ := open_account_ok_cases b owner today init lim acc hok
  exact (runOps_good acc ops ⟨hbal, le_of_eq hwt.symm⟩).2

/-- C10 witness: open with 20 at limit 10, withdraw 5, render a day
later (forcing a rollover), withdraw 7: the counter stays
non-negative. -/
theorem C10_witness :
    0 ≤ ((Account.mk 1001 "Bob" 20 10 0 0).runOps
      [.withdraw 0 5, .render 1, .withdraw 1 7]).withdrawn_today :=
  C10_withdrawn_today_nonneg (Bank.init 1001) "Bob" 0 20 10
    (Account.mk 1001 "Bob" 20 10 0 0)
    (by norm_num [Bank.open_account, Bank.init, Account.deposit,
      (by decide : pyStrip "Bob" = "Bob"),
      (by decide : ¬ ("Bob" = ""))])
    [.withdraw 0 5, .render 1, .withdraw 1 7]

/-! ## Claim C9: list_accounts is an independent snapshot -/

/-- C9: with a valid registry reference, `list_accounts` returns a dict
holding exactly the entries of the registry, behind a reference distinct from
the one of the registry; mutating the snapshot object in place — replacing
its contents with anything, which covers adding and removing entries —
leaves the registry of the bank exactly as it was. -/
theorem C9_list_accounts_snapshot (h : PyHeap) (b : BankObj)
    (hv : b.accountsRef < h.cells.length) :
    (BankObj.list_accounts h b).1.read (BankObj.list_accounts h b).2
        = h.read b.accountsRef ∧
    (BankObj.list_accounts h b).2 ≠ b.accountsRef ∧
    (∀ d : Dict,
      ((BankObj.list_accounts h b).1.write (BankObj.list_accounts h b).2 d).read
          b.accountsRef = h.read b.accountsRef) := by
  unfold BankObj.list_accounts PyHeap.alloc PyHeap.read PyHeap.write
  refine ⟨?_, ?_, fun d => ?_⟩
  · simp [List.getD_eq_getElem?_getD,
      List.getElem?_append_right (Nat.le_refl _)]
  · exact fun hEq => absurd (hEq ▸ hv) (lt_irrefl _)
  · rw [List.getD_eq_getElem?_getD,
      List.getElem?_set_ne (Nat.ne_of_gt hv),
      ← List.getD_eq_getElem?_getD]
    simp [List.getD_eq_getElem?_getD, List.getElem?_append, hv]

/-- C9 witness: on the one-cell heap, the snapshot lands in cell 1,
equals the registry, and emptying the snapshot leaves the registry
intact. -/
theorem C9_witness :
    (BankObj.list_accounts heapC9 bankObjC9).1.read
        (BankObj.list_accounts heapC9 bankObjC9).2
      = heapC9.read bankObjC9.accountsRef ∧
    (BankObj.list_accounts heapC9 bankObjC9).2 ≠ bankObjC9.accountsRef ∧
    ((BankObj.list_accounts heapC9 bankObjC9).1.write
        (BankObj.list_accounts heapC9 bankObjC9).2 []).read
        bankObjC9.accountsRef = heapC9.read bankObjC9.accountsRef := by
  obtain ⟨h1, h2, h3⟩ :=
    C9_list_accounts_snapshot heapC9 bankObjC9 (by decide)
  exact ⟨h1, h2, h3 []⟩

/-! ## Claim C5: account numbering across the lifetime of a bank -/

/-- Everything a successful close_account guarantees. -/
theorem close_account_ok_cases (b : Bank) (n : Int) (acc : Account)
    (h : (b.close_account n).2 = .ok acc) :
    dictGet b.accounts n = some acc ∧ acc.balance = 0 ∧
    (b.close_account n).1 = ⟨dictErase b.accounts n, b.next⟩ := by
  unfold Bank.close_account at h ⊢
  cases hg : dictGet b.accounts n with
  | none => rw [hg] at h; simp at h
  | some acc' =>
    rw [hg] at h
    by_cases hb : acc'.balance ≠ 0
    · simp [hb] at h
    · rw [not_ne_iff] at hb
      simp only [hg, hb, ne_eq, not_true_eq_false, if_false, ite_false] at h ⊢
      simp at h
      subst h
      exact ⟨rfl, hb, trivial⟩

/-- A key of the dict after an insert is the inserted key or an old
key. -/
theorem dictKeys_insert_sub (d : Dict) (k : Int) (v : Account) (k' : Int)
    (h : k' ∈ dictKeys (dictInsert d k v)) : k' = k ∨ k' ∈ dictKeys d := by
  unfold dictInsert dictKeys at *
  by_cases hs : (d.find? (fun p => p.1 == k)).isSome
  · rw [if_pos hs] at h
    simp only [List.map_map, List.mem_map, Function.comp] at h
    obtain ⟨p, hp, hfp⟩ := h
    by_cases hpk : p.1 = k
    · left
      rw [if_pos (by simpa using hpk)] at hfp
      exact hfp.symm
    · right
      rw [if_neg (by simpa using hpk)] at hfp
      exact List.mem_map.mpr ⟨p, hp, hfp⟩
  · rw [if_neg hs] at h
    rw [List.map_append, List.mem_append] at h
    rcases h with h | h
    · exact Or.inr h
    · left; simpa using h

/-- A key of the dict after an erase was a key before. -/
theorem dictKeys_erase_sub (d : Dict) (k k' : Int)
    (h : k' ∈ dictKeys (dictErase d k)) : k' ∈ dictKeys d := by
  unfold dictErase dictKeys at *
  simp only [List.mem_map] at *
  obtain ⟨p, hp, rfl⟩ := h
  exact ⟨p, (List.mem_filter.mp hp).1, rfl⟩

/-- One lifecycle call never decreases the counter. -/
theorem stepOp_next_mono (b : Bank) (op : BankOp) :
    b.next ≤ (b.stepOp op).next := by
  cases op with
  | openAccount owner today init lim =>
    simp only [Bank.stepOp]
    cases hr : (b.open_account owner today init lim).2 with
    | error e =>
      rw [open_account_error_frame b owner today init lim e hr]
    | ok acc =>
      rw [(open_account_ok_cases b owner today init lim acc hr).2.2.2.2.2.2]
      exact le_of_lt (lt_add_one b.next)
  | closeAccount n =>
    simp only [Bank.stepOp]
    cases hr : (b.close_account n).2 with
    | error e => rw [close_account_error_frame b n e hr]
    | ok acc => rw [(close_account_ok_cases b n acc hr).2.2]

/-- A run of lifecycle calls never decreases the counter. -/
theorem runOps_next_mono (b : Bank) (ops : List BankOp) :
    b.next ≤ (b.runOps ops).next := by
  induction ops generalizing b with
  | nil => exact le_refl _
  | cons op ops ih =>
    simp only [Bank.runOps, List.foldl_cons] at *
    exact le_trans (stepOp_next_mono b op) (ih (b.stepOp op))

/-- Running a concatenation runs the two parts in turn. -/
theorem runOps_append (b : Bank) (l₁ l₂ : List BankOp) :
    b.runOps (l₁ ++ l₂) = (b.runOps l₁).runOps l₂ := by
  simp [Bank.runOps, List.foldl_append]

/-- One lifecycle call preserves the registry invariant. -/
theorem Inv_stepOp (b : Bank) (op : BankOp) (h : b.Inv) :
    (b.stepOp op).Inv := by
  cases op with
  | openAccount owner today init lim =>
    simp only [Bank.stepOp]
    cases hr : (b.open_account owner today init lim).2 with
    | error e =>
      rw [open_account_error_frame b owner today init lim e hr]; exact h
    | ok acc =>
      rw [(open_account_ok_cases b owner today init lim acc hr).2.2.2.2.2.2]
      intro k hk
      rcases dictKeys_insert_sub b.accounts b.next acc k hk with rfl | hk'
      · exact lt_add_one _
      · exact lt_trans (h k hk') (lt_add_one b.next)
  | closeAccount n =>
    simp only [Bank.stepOp]
    cases hr : (b.close_account n).2 with
    | error e => rw [close_account_error_frame b n e hr]; exact h
    | ok acc =>
      rw [(close_account_ok_cases b n acc hr).2.2]
      intro k hk
      exact h k (dictKeys_erase_sub b.accounts n k hk)

/-- A run of lifecycle calls preserves the registry invariant. -/
theorem Inv_runOps (b : Bank) (ops : List BankOp) (h : b.Inv) :
    (b.runOps ops).Inv := by
  induction ops generalizing b with
  | nil => exact h
  | cons op ops ih =>
    simp only [Bank.runOps, List.foldl_cons] at *
    exact ih (b.stepOp op) (Inv_stepOp b op h)

/-- Every number issued during a run is at least the counter at the
start of the run. -/
theorem issued_lower_bound (b : Bank) (ops : List BankOp) (n : Int)
    (h : n ∈ issuedNumbers b ops) : b.next ≤ n := by
  induction ops generalizing b with
  | nil => simp [issuedNumbers] at h
  | cons op ops ih =>
    simp only [issuedNumbers] at h
    rcases List.mem_append.mp h with h | h
    · cases op with
      | openAccount owner today init lim =>
        simp only [issuedStep] at h
        cases hr : (b.open_account owner today init lim).2 with
        | error e => rw [hr] at h; simp at h
        | ok acc =>
          rw [hr] at h
          obtain rfl := List.mem_singleton.mp h
          rw [(open_account_ok_cases b owner today init lim acc hr).1]
      | closeAccount m => simp [issuedStep] at h
    · exact le_trans (stepOp_next_mono b op) (ih (b.stepOp op) h)

/-- The numbers issued during a run are strictly increasing. -/
theorem issued_pairwise (b : Bank) (ops : List BankOp) :
    List.Pairwise (· < ·) (issuedNumbers b ops) := by
  induction ops generalizing b with
  | nil => exact List.Pairwise.nil
  | cons op ops ih =>
    simp only [issuedNumbers]
    apply List.pairwise_append.mpr
    refine ⟨?_, ih (b.stepOp op), ?_⟩
    · cases op with
      | openAccount owner today init lim =>
        simp only [issuedStep]
        cases (b.open_account owner today init lim).2 with
        | error e => exact List.Pairwise.nil
        | ok acc => exact List.pairwise_singleton _ _
      | closeAccount m => exact List.Pairwise.nil
    · intro x hx y hy
      cases op with
      | openAccount owner today init lim =>
        simp only [issuedStep] at hx
        cases hr : (b.open_account owner today init lim).2 with
        | error e => rw [hr] at hx; simp at hx
        | ok acc =>
          rw [hr] at hx
          obtain rfl := List.mem_singleton.mp hx
          have hx1 : acc.number = b.next :=
            (open_account_ok_cases b owner today init lim acc hr).1
          have hnext : (b.stepOp (.openAccount owner today init lim)).next
              = b.next + 1 := by
            simp only [Bank.stepOp]
            rw [(open_account_ok_cases b owner today init lim acc
              hr).2.2.2.2.2.2]
          have hy1 := issued_lower_bound _ ops y hy
          rw [hnext] at hy1
          rw [hx1]
          omega
      | closeAccount m => simp [issuedStep] at hx

/-- C5: starting from any bank satisfying the registry invariant, over
any sequence of open/close calls: the numbers issued by successful opens
are strictly increasing; the final counter strictly dominates every key
present at any intermediate point; a failed open leaves the bank — in
particular the counter — untouched; and a number present at any point
(so, in particular, one later removed by close_account) is never issued
again in the remainder of the run. -/
theorem C5_account_numbering (b : Bank) (ops : List BankOp) (hInv : b.Inv) :
    List.Pairwise (· < ·) (issuedNumbers b ops) ∧
    (∀ l₁ l₂, ops = l₁ ++ l₂ →
      ∀ k ∈ dictKeys (b.runOps l₁).accounts, k < (b.runOps ops).next) ∧
    (∀ owner today init lim (e : Err),
      (b.open_account owner today init lim).2 = .error e →
      (b.open_account owner today init lim).1 = b) ∧
    (∀ l₁ l₂ n, ops = l₁ ++ l₂ → n ∈ dictKeys (b.runOps l₁).accounts →
      n ∉ issuedNumbers (b.runOps l₁) l₂) := by
  refine ⟨issued_pairwise b ops, ?_,
    fun owner today init lim e h =>
      open_account_error_frame b owner today init lim e h, ?_⟩
  · rintro l₁ l₂ rfl k hk
    have h1 : k < (b.runOps l₁).next := Inv_runOps b l₁ hInv k hk
    have h2 : (b.runOps l₁).next ≤ (b.runOps (l₁ ++ l₂)).next := by
      rw [runOps_append]; exact runOps_next_mono _ l₂
    omega
  · rintro l₁ l₂ n rfl hn hmem
    have h1 : n < (b.runOps l₁).next := Inv_runOps b l₁ hInv n hn
    have h2 := issued_lower_bound (b.runOps l₁) l₂ n hmem
    omega

/-- C5 witness: from a fresh bank (trivially invariant), the run
open–close–open issues strictly increasing numbers. -/
theorem C5_witness :
    List.Pairwise (· < ·)
      (issuedNumbers (Bank.init 1001)
        [.openAccount "Alice" 0 100 50, .closeAccount 1001,
         .openAccount "Bob" 1 0 0]) :=
  (C5_account_numbering (Bank.init 1001)
    [.openAccount "Alice" 0 100 50, .closeAccount 1001,
     .openAccount "Bob" 1 0 0] (by decide)).1

end BankOfJoe
